import Mathlib

/-!
Shallow embedding of src/musiccli.py, a queued multi-threaded YouTube music
downloader CLI.  Python dicts are modelled as association lists in insertion
order, the shared state (active_downloads, completed_downloads,
failed_downloads) as a record, and the worker loop body, the progress hook,
the status table and the dispatcher input handling as Lean functions
translated from the source.  The drain-then-sentinel shutdown protocol and
the locked status snapshot are modelled as small-step transition systems
over these definitions.
-/

namespace MusicCLI

/-- Characters removed by Python str.strip() with no arguments, for the
ASCII range the CLI deals with. -/
def pyIsSpace (c : Char) : Bool :=
  c == ' ' || c == '\t' || c == '\n' || c == '\r' || c == '\x0b' || c == '\x0c'

/-- Python str.strip(): remove leading and trailing whitespace. -/
def pyStrip (s : String) : String :=
  ⟨((s.data.dropWhile pyIsSpace).reverse.dropWhile pyIsSpace).reverse⟩

/-- Python slicing s[:n] by code points. -/
def pyTake (s : String) (n : Nat) : String := ⟨s.data.take n⟩

/-- Python str.lower() (ASCII case mapping, which covers the command letters). -/
def pyLower (s : String) : String := ⟨s.data.map Char.toLower⟩

/-- First phase of substring search: sub matches at the head of l. -/
def leadEq : List Char → List Char → Bool
  | [], _ => true
  | _ :: _, [] => false
  | a :: as, b :: bs => a == b && leadEq as bs

/-- sub occurs contiguously somewhere in l. -/
def hasSubList (sub : List Char) : List Char → Bool
  | [] => leadEq sub []
  | c :: tl => leadEq sub (c :: tl) || hasSubList sub tl

/-- Python membership test `sub in s` on strings: substring containment. -/
def containsSub (s sub : String) : Bool := hasSubList sub.data s.data

/-- A Python dict with string keys and values, as an association list in
insertion order: the value dicts stored in active_downloads, holding the
keys "title" and "progress". -/
abbrev PyDict := List (String × String)

/-- Python d.get(k, dflt): dict keys are unique, so first match suffices. -/
def dictGet (d : PyDict) (k dflt : String) : String :=
  match d with
  | [] => dflt
  | p :: tl => if p.1 == k then p.2 else dictGet tl k dflt

/-- Python d[k] = v: update in place when present, append when new. -/
def dictSet (d : PyDict) (k v : String) : PyDict :=
  match d with
  | [] => [(k, v)]
  | p :: tl => if p.1 == k then (k, v) :: tl else p :: dictSet tl k v

/-- The active_downloads dict: url keyed, insertion ordered. -/
abbrev ActiveMap := List (String × PyDict)

/-- Python membership test `url in active_downloads`. -/
def mapContains (m : ActiveMap) (url : String) : Bool :=
  match m with
  | [] => false
  | p :: tl => p.1 == url || mapContains tl url

/-- Python active_downloads[url] for a present key (unused default otherwise). -/
def mapGet (m : ActiveMap) (url : String) : PyDict :=
  match m with
  | [] => []
  | p :: tl => if p.1 == url then p.2 else mapGet tl url

/-- Python active_downloads[url] = v: overwrite in place when present. -/
def mapSet (m : ActiveMap) (url : String) (v : PyDict) : ActiveMap :=
  match m with
  | [] => [(url, v)]
  | p :: tl => if p.1 == url then (url, v) :: tl else p :: mapSet tl url v

/-- Removal of the entry keyed url, keeping the order of the rest (dict
keys are unique, so filtering the key out is the removal of its entry). -/
def delKey (m : ActiveMap) (url : String) : ActiveMap :=
  m.filter (fun p => !(p.1 == url))

/-- Python `del active_downloads[url]`: none models the KeyError raised when
the key is absent. -/
def pyDel (m : ActiveMap) (url : String) : Option ActiveMap :=
  if mapContains m url then some (delKey m url) else none

/-- The guarded removal pattern `if url in active_downloads: del
active_downloads[url]` used on both the success and the failure path of
download_worker; the Bool reports whether a removal happened, and none
would model an uncaught KeyError. -/
def leave (m : ActiveMap) (url : String) : Option (Bool × ActiveMap) :=
  if mapContains m url then (pyDel m url).map (fun m2 => (true, m2))
  else some (false, m)

/-- The shared mutable state guarded by queue_lock (minus the queue itself):
lines 26-28 of the source. -/
structure DState where
  active_downloads : ActiveMap
  completed_downloads : List String
  failed_downloads : List String
  deriving DecidableEq, Repr

/-- A yt-dlp progress callback event: d with d["status"] either
"downloading" (carrying an optional "_percent_str"), "finished", or some
other status the hook ignores. -/
inductive ProgressEvent where
  | downloading (percentStr : Option String)
  | finished
  | other (status : String)
  deriving DecidableEq, Repr

/-- progress_hook (source lines 103-112): update the progress field of the
active entry for url, and do nothing at all when the entry is absent. -/
def progress_hook (url : String) (e : ProgressEvent) (st : DState) : DState :=
  match e with
  | .downloading p =>
    let percent := p.getD "0%"
    if mapContains st.active_downloads url then
      let m := mapSet st.active_downloads url
        (dictSet (mapGet st.active_downloads url) "progress" percent)
      { st with active_downloads := m }
    else st
  | .finished =>
    if mapContains st.active_downloads url then
      let m := mapSet st.active_downloads url
        (dictSet (mapGet st.active_downloads url) "progress" "100%")
      { st with active_downloads := m }
    else st
  | .other _ => st

/-- Outcome of the external yt-dlp calls for one url: the probe
(extract_info) fails, or the probe succeeds (info.get("title") being the
optional probedTitle) and the download fails after some progress events,
or everything succeeds. -/
inductive FetchOutcome where
  | probeErr (msg : String)
  | fetchErr (probedTitle : Option String) (events : List ProgressEvent) (msg : String)
  | success (probedTitle : Option String) (events : List ProgressEvent)
  deriving DecidableEq, Repr

/-- Source lines 129-132, the success epilogue: the del is guarded on key
presence, the completed append is unconditional. -/
def download_worker_mark_completed (st : DState) (url title : String) : DState :=
  let active :=
    match leave st.active_downloads url with
    | some (_, m2) => m2
    | none => st.active_downloads
  { st with active_downloads := active,
            completed_downloads := st.completed_downloads ++ [title] }

/-- Source lines 134-140, the except handler: truncate the message to 50
characters; when the entry is present, read its title with the url[:50]
default, delete it and append the failure record; when absent, do nothing. -/
def download_worker_except (st : DState) (url msg : String) : DState :=
  let error_msg := pyTake msg 50
  if mapContains st.active_downloads url then
    let title := dictGet (mapGet st.active_downloads url) "title" (pyTake url 50)
    let active :=
      match pyDel st.active_downloads url with
      | some m2 => m2
      | none => st.active_downloads
    { st with active_downloads := active,
              failed_downloads := st.failed_downloads ++ [title ++ " - " ++ error_msg] }
  else st

/-- Source lines 121-123: update the title of the active entry for url
under the presence guard. -/
def download_worker_update_title (st : DState) (url title : String) : DState :=
  if mapContains st.active_downloads url then
    let m := mapSet st.active_downloads url
      (dictSet (mapGet st.active_downloads url) "title" title)
    { st with active_downloads := m }
  else st

/-- Source line 89: enter the url into active_downloads with the default
title and progress, overwriting any colliding entry. -/
def download_worker_enter (st : DState) (url : String) : DState :=
  let m := mapSet st.active_downloads url
    [("title", "Fetching info..."), ("progress", "0%")]
  { st with active_downloads := m }

/-- One non-sentinel iteration of download_worker (source lines 86-143):
enter the url with default title and progress, probe, update the title
under the presence guard, fold the progress events through progress_hook,
then the success epilogue or the except handler; the finally clause runs
task_done() exactly once, counted by the Nat component. -/
def download_worker_item (st : DState) (url : String) (oc : FetchOutcome) :
    DState × Nat :=
  let st := download_worker_enter st url
  match oc with
  | .probeErr msg => (download_worker_except st url msg, 1)
  | .fetchErr t events msg =>
    let title := t.getD "Unknown"
    let st := download_worker_update_title st url title
    let st := events.foldl (fun s e => progress_hook url e s) st
    (download_worker_except st url msg, 1)
  | .success t events =>
    let title := t.getD "Unknown"
    let st := download_worker_update_title st url title
    let st := events.foldl (fun s e => progress_hook url e s) st
    (download_worker_mark_completed st url title, 1)

/-- A rendered table row: status column, title column, progress column
(display glyphs of the source omitted, the text structure kept). -/
abbrev Row := String × String × String

/-- Source lines 58-62: one row per active entry, title read with the
default then truncated to 47 characters plus an ellipsis. -/
def activeRows (st : DState) : List Row :=
  st.active_downloads.map (fun p =>
    ("Downloading", pyTake (dictGet p.2 "title" "Fetching info...") 47 ++ "...",
      dictGet p.2 "progress" "0%"))

/-- Source lines 64-67: one queue summary row when the queue is nonempty. -/
def queueRows (queueSize : Nat) : List Row :=
  if queueSize > 0 then [("In Queue", toString queueSize ++ " video(s) waiting", "-")]
  else []

/-- Python l[-3:]: the last three elements (the whole list when shorter). -/
def lastThree (l : List String) : List String := l.drop (l.length - 3)

/-- Source lines 69-71: the last three completed downloads. -/
def completedRows (st : DState) : List Row :=
  (lastThree st.completed_downloads).map (fun item =>
    ("Completed", pyTake item 47 ++ "...", "100%"))

/-- Source lines 73-75: the last three failed downloads. -/
def failedRows (st : DState) : List Row :=
  (lastThree st.failed_downloads).map (fun item =>
    ("Failed", pyTake item 47 ++ "...", "Error"))

/-- create_status_table (source lines 50-77) as a pure function of the
shared state and the queue size it reads under the lock. -/
def create_status_table (st : DState) (queueSize : Nat) : List Row :=
  activeRows st ++ queueRows queueSize ++ completedRows st ++ failedRows st

/-- What one iteration of the main input loop (source lines 180-217) does
with the entered line. -/
inductive InputAction where
  | quit
  | status
  | rejectEmpty
  | rejectNotYouTube
  | enqueued (newQueueSize : Nat)
  deriving DecidableEq, Repr

/-- The dispatch on the entered url string (source lines 185-217): the q
and s commands compare the lowercased raw input before any stripping; then
empty-after-strip input is rejected, then input containing neither
"youtube.com" nor "youtu.be" is rejected, and otherwise the url is put on
the queue and the new queue size is reported. -/
def main_handle_input (url : String) (queueSize : Nat) : InputAction :=
  if pyLower url = "q" then .quit
  else if pyLower url = "s" then .status
  else if pyStrip url = "" then .rejectEmpty
  else if !containsSub url "youtube.com" && !containsSub url "youtu.be" then
    .rejectNotYouTube
  else .enqueued (queueSize + 1)

/-- num_workers (source line 156). -/
def num_workers : Nat := 3

/-- An entry of the download queue: a real url together with the outcome
the external fetch engine will produce for it, or the None poison pill. -/
inductive QItem where
  | work (url : String) (oc : FetchOutcome)
  | sentinel
  deriving DecidableEq, Repr

/-- Number of real work items in a queue. -/
def workCount (q : List QItem) : Nat :=
  (q.filter (fun i => match i with | .work _ _ => true | .sentinel => false)).length

/-- Number of poison pills in a queue. -/
def sentCount (q : List QItem) : Nat :=
  (q.filter (fun i => match i with | .work _ _ => false | .sentinel => true)).length

/-- Where the dispatcher is inside the quit sequence (source lines
185-194): blocked in download_queue.join(), or putting the k remaining
poison pills after the join returned. -/
inductive DispPhase where
  | draining
  | stopping (toPut : Nat)
  deriving DecidableEq, Repr

/-- Whether the predetermined outcome of an item is a failure (probe or
fetch error) rather than a success. -/
def isFailureOutcome : FetchOutcome → Bool
  | .probeErr _ => true
  | .fetchErr _ _ _ => true
  | .success _ _ => false

/-- The whole system during the graceful-quit sequence, at the
granularity of the queue operations, which are the atomic ones here
(Queue.get, Queue.put, Queue.task_done and Queue.join synchronise on the
queue mutex): the queue, the unfinished-task counter of the Python Queue
(incremented by put, decremented by task_done), the dequeued items not
yet signalled done, how many workers have consumed a poison pill and
exited, the dispatcher phase, and how many work items were fully
processed, split by outcome.  The ledger mutations of the worker body
happen in five separate queue_lock critical sections between the get and
the task_done and are deliberately not part of this model; they are
treated by the DState functions and lemmas above. -/
structure Sys where
  queue : List QItem
  unfinished : Nat
  inflight : List (String × FetchOutcome)
  exited : Nat
  phase : DispPhase
  processedWork : Nat
  processedOk : Nat
  processedErr : Nat
  deriving DecidableEq, Repr

/-- The instant quit is entered with the given items enqueued: the
dispatcher blocks in download_queue.join() while workers keep running. -/
def initSys (items : List (String × FetchOutcome)) : Sys :=
  { queue := items.map (fun p => QItem.work p.1 p.2)
    unfinished := items.length
    inflight := []
    exited := 0
    phase := .draining
    processedWork := 0
    processedOk := 0
    processedErr := 0 }

/-- Interleaved small steps of the workers and the quitting dispatcher,
each an atomic queue operation.  A worker dequeues the head of the
queue: a work item goes in flight, a poison pill makes the worker break
out of its loop without task_done (source lines 82-84).  A worker whose
in-flight item has run to the end of its iteration, on the success path
or on the failure path, signals task_done exactly once in the finally
clause (lines 142-143); only the completion count, split by the item
outcome, is recorded here, since the ledger writes of the body happen in
their own earlier critical sections.  The dispatcher leaves
download_queue.join() only when the unfinished count is zero (line 187),
and then puts one poison pill per worker, each put incrementing the
unfinished count (lines 191-192). -/
inductive Step : Sys → Sys → Prop where
  | dequeueWork (s : Sys) (u : String) (oc : FetchOutcome) (rest : List QItem)
      (hq : s.queue = .work u oc :: rest) :
      Step s { s with queue := rest, inflight := s.inflight ++ [(u, oc)] }
  | dequeueSentinel (s : Sys) (rest : List QItem)
      (hq : s.queue = .sentinel :: rest) :
      Step s { s with queue := rest, exited := s.exited + 1 }
  | finishItem (s : Sys) (l1 l2 : List (String × FetchOutcome))
      (u : String) (oc : FetchOutcome)
      (hf : s.inflight = l1 ++ (u, oc) :: l2) :
      Step s { s with inflight := l1 ++ l2
                      unfinished := s.unfinished - 1
                      processedWork := s.processedWork + 1
                      processedOk :=
                        s.processedOk + (if isFailureOutcome oc then 0 else 1)
                      processedErr :=
                        s.processedErr + (if isFailureOutcome oc then 1 else 0) }
  | drainComplete (s : Sys) (hp : s.phase = .draining) (hu : s.unfinished = 0) :
      Step s { s with phase := .stopping num_workers }
  | putSentinel (s : Sys) (k : Nat) (hp : s.phase = .stopping (k + 1)) :
      Step s { s with queue := s.queue ++ [.sentinel]
                      unfinished := s.unfinished + 1
                      phase := .stopping k }

/-- States the quit sequence can reach from the given enqueued items. -/
def Reachable (items : List (String × FetchOutcome)) (s : Sys) : Prop :=
  Relation.ReflTransGen Step (initSys items) s

/-- Who holds queue_lock in the snapshot model. -/
inductive Owner where
  | free
  | renderer
  deriving DecidableEq, Repr

/-- The state create_status_table reads under the lock: the shared record
and download_queue.qsize(). -/
abbrev SState := DState × Nat

/-- System for the status snapshot: the shared state, the lock owner, the
program counter of one create_status_table call (0 before it takes the
lock, 1 after acquiring, 2-5 after each of its four reads, 6 after
releasing), and the four row groups it has read so far. -/
structure RSys where
  shared : SState
  owner : Owner
  pc : Nat
  obsActive : List Row
  obsQueue : List Row
  obsCompleted : List Row
  obsFailed : List Row

/-- A renderer call that has not started, over the given shared state. -/
def initRSys (s0 : SState) : RSys :=
  { shared := s0, owner := .free, pc := 0
    obsActive := [], obsQueue := [], obsCompleted := [], obsFailed := [] }

/-- Interleaving of create_status_table (source lines 58-75, one critical
section doing its four reads between acquiring and releasing queue_lock)
with the other threads: a writer step is any whole critical section of a
worker or the dispatcher (all their mutations of the shared state happen
inside `with queue_lock` blocks), so it requires the lock to be free. -/
inductive RStep : RSys → RSys → Prop where
  | writer (s : RSys) (f : SState → SState) (h : s.owner = .free) :
      RStep s { s with shared := f s.shared }
  | acquire (s : RSys) (h : s.owner = .free) (hpc : s.pc = 0) :
      RStep s { s with owner := .renderer, pc := 1 }
  | readActive (s : RSys) (h : s.owner = .renderer) (hpc : s.pc = 1) :
      RStep s { s with obsActive := activeRows s.shared.1, pc := 2 }
  | readQueue (s : RSys) (h : s.owner = .renderer) (hpc : s.pc = 2) :
      RStep s { s with obsQueue := queueRows s.shared.2, pc := 3 }
  | readCompleted (s : RSys) (h : s.owner = .renderer) (hpc : s.pc = 3) :
      RStep s { s with obsCompleted := completedRows s.shared.1, pc := 4 }
  | readFailed (s : RSys) (h : s.owner = .renderer) (hpc : s.pc = 4) :
      RStep s { s with obsFailed := failedRows s.shared.1, pc := 5 }
  | release (s : RSys) (h : s.owner = .renderer) (hpc : s.pc = 5) :
      RStep s { s with owner := .free, pc := 6 }

/-- Snapshot states reachable from an idle renderer over shared state s0. -/
def RReachable (s0 : SState) (s : RSys) : Prop :=
  Relation.ReflTransGen RStep (initRSys s0) s

theorem mapContains_mapSet_self (m : ActiveMap) (url : String) (v : PyDict) :
    mapContains (mapSet m url v) url = true := by
  induction m with
  | nil => simp [mapSet, mapContains]
  | cons p tl ih =>
    cases hpk : (p.1 == url) with
    | false => simp [mapSet, mapContains, hpk, ih]
    | true => simp [mapSet, mapContains, hpk]

theorem mapGet_mapSet_self (m : ActiveMap) (url : String) (v : PyDict) :
    mapGet (mapSet m url v) url = v := by
  induction m with
  | nil => simp [mapSet, mapGet]
  | cons p tl ih =>
    cases hpk : (p.1 == url) with
    | false => simp [mapSet, mapGet, hpk, ih]
    | true => simp [mapSet, mapGet, hpk]

theorem dictGet_dictSet_self (d : PyDict) (k v dflt : String) :
    dictGet (dictSet d k v) k dflt = v := by
  induction d with
  | nil => simp [dictSet, dictGet]
  | cons p tl ih =>
    cases hpk : (p.1 == k) with
    | false => simp [dictSet, dictGet, hpk, ih]
    | true => simp [dictSet, dictGet, hpk]

theorem dictGet_dictSet_ne (d : PyDict) (k k' v dflt : String) (h : k' ≠ k) :
    dictGet (dictSet d k v) k' dflt = dictGet d k' dflt := by
  induction d with
  | nil => simp [dictSet, dictGet, Ne.symm h]
  | cons p tl ih =>
    cases hpk : (p.1 == k) with
    | false => simp [dictSet, dictGet, hpk, ih]
    | true =>
      have hp1 : p.1 = k := by simpa using hpk
      simp [dictSet, dictGet, hpk, hp1, Ne.symm h]

theorem mapContains_delKey_self (m : ActiveMap) (url : String) :
    mapContains (delKey m url) url = false := by
  induction m with
  | nil => rfl
  | cons p tl ih =>
    cases hpk : (p.1 == url) with
    | false => simp [delKey, List.filter_cons, hpk, mapContains, ih, delKey] at ih ⊢
    | true => simpa [delKey, List.filter_cons, hpk] using ih

theorem download_worker_enter_eq (st : DState) (url : String) :
    download_worker_enter st url =
      ⟨mapSet st.active_downloads url
          [("title", "Fetching info..."), ("progress", "0%")],
        st.completed_downloads, st.failed_downloads⟩ := rfl

theorem download_worker_except_present (st : DState) (url msg : String)
    (h : mapContains st.active_downloads url = true) :
    download_worker_except st url msg =
      ⟨delKey st.active_downloads url, st.completed_downloads,
        st.failed_downloads ++
          [dictGet (mapGet st.active_downloads url) "title" (pyTake url 50)
            ++ " - " ++ pyTake msg 50]⟩ := by
  unfold download_worker_except pyDel
  simp [h]

theorem download_worker_except_absent (st : DState) (url msg : String)
    (h : mapContains st.active_downloads url = false) :
    download_worker_except st url msg = st := by
  unfold download_worker_except
  simp [h]

theorem download_worker_mark_completed_eq (st : DState) (url title : String) :
    download_worker_mark_completed st url title =
      ⟨if mapContains st.active_downloads url then delKey st.active_downloads url
          else st.active_downloads,
        st.completed_downloads ++ [title], st.failed_downloads⟩ := by
  unfold download_worker_mark_completed leave pyDel
  by_cases h : mapContains st.active_downloads url <;> simp [h]

theorem download_worker_update_title_eq (st : DState) (url title : String) :
    download_worker_update_title st url title =
      ⟨if mapContains st.active_downloads url then
          mapSet st.active_downloads url
            (dictSet (mapGet st.active_downloads url) "title" title)
          else st.active_downloads,
        st.completed_downloads, st.failed_downloads⟩ := by
  unfold download_worker_update_title
  by_cases h : mapContains st.active_downloads url <;> simp [h]

theorem progress_hook_contains (url : String) (e : ProgressEvent) (st : DState) :
    mapContains (progress_hook url e st).active_downloads url
      = mapContains st.active_downloads url := by
  cases e with
  | downloading p =>
    by_cases h : mapContains st.active_downloads url
    · simp [progress_hook, h, mapContains_mapSet_self]
    · simp [progress_hook, h]
  | finished =>
    by_cases h : mapContains st.active_downloads url
    · simp [progress_hook, h, mapContains_mapSet_self]
    · simp [progress_hook, h]
  | other s => rfl

theorem progress_hook_title (url : String) (e : ProgressEvent) (st : DState)
    (dflt : String) :
    dictGet (mapGet (progress_hook url e st).active_downloads url) "title" dflt
      = dictGet (mapGet st.active_downloads url) "title" dflt := by
  cases e with
  | downloading p =>
    by_cases h : mapContains st.active_downloads url
    · simp [progress_hook, h, mapGet_mapSet_self]
      exact dictGet_dictSet_ne _ _ _ _ _ (by decide)
    · simp [progress_hook, h]
  | finished =>
    by_cases h : mapContains st.active_downloads url
    · simp [progress_hook, h, mapGet_mapSet_self]
      exact dictGet_dictSet_ne _ _ _ _ _ (by decide)
    · simp [progress_hook, h]
  | other s => rfl

theorem progress_hook_lists (url : String) (e : ProgressEvent) (st : DState) :
    (progress_hook url e st).completed_downloads = st.completed_downloads
      ∧ (progress_hook url e st).failed_downloads = st.failed_downloads := by
  cases e with
  | downloading p =>
    by_cases h : mapContains st.active_downloads url <;> simp [progress_hook, h]
  | finished =>
    by_cases h : mapContains st.active_downloads url <;> simp [progress_hook, h]
  | other s => exact ⟨rfl, rfl⟩

theorem hooks_fold_contains (url : String) (events : List ProgressEvent)
    (st : DState) :
    mapContains ((events.foldl (fun s e => progress_hook url e s) st)).active_downloads url
      = mapContains st.active_downloads url := by
  induction events generalizing st with
  | nil => rfl
  | cons e tl ih => rw [List.foldl_cons, ih, progress_hook_contains]

theorem hooks_fold_title (url : String) (events : List ProgressEvent)
    (st : DState) (dflt : String) :
    dictGet (mapGet ((events.foldl (fun s e => progress_hook url e s) st)).active_downloads url)
        "title" dflt
      = dictGet (mapGet st.active_downloads url) "title" dflt := by
  induction events generalizing st with
  | nil => rfl
  | cons e tl ih => rw [List.foldl_cons, ih, progress_hook_title]

theorem hooks_fold_lists (url : String) (events : List ProgressEvent)
    (st : DState) :
    ((events.foldl (fun s e => progress_hook url e s) st)).completed_downloads
        = st.completed_downloads
      ∧ ((events.foldl (fun s e => progress_hook url e s) st)).failed_downloads
        = st.failed_downloads := by
  induction events generalizing st with
  | nil => exact ⟨rfl, rfl⟩
  | cons e tl ih =>
    rw [List.foldl_cons]
    rcases ih (progress_hook url e st) with ⟨h1, h2⟩
    rcases progress_hook_lists url e st with ⟨h3, h4⟩
    exact ⟨h1.trans h3, h2.trans h4⟩

theorem download_worker_item_probeErr (st : DState) (url msg : String) :
    (download_worker_item st url (.probeErr msg)).1 =
      ⟨delKey (mapSet st.active_downloads url
          [("title", "Fetching info..."), ("progress", "0%")]) url,
        st.completed_downloads,
        st.failed_downloads ++ ["Fetching info..." ++ " - " ++ pyTake msg 50]⟩ := by
  show (download_worker_except (download_worker_enter st url) url msg) = _
  rw [download_worker_except_present _ _ _
    (by rw [download_worker_enter_eq]; exact mapContains_mapSet_self _ _ _)]
  rw [download_worker_enter_eq]
  simp [mapGet_mapSet_self, dictGet]

theorem download_worker_item_fetchErr (st : DState) (url msg : String)
    (t : Option String) (events : List ProgressEvent) :
    (download_worker_item st url (.fetchErr t events msg)).1.failed_downloads
        = st.failed_downloads ++ [t.getD "Unknown" ++ " - " ++ pyTake msg 50]
      ∧ mapContains (download_worker_item st url (.fetchErr t events msg)).1.active_downloads
          url = false
      ∧ (download_worker_item st url (.fetchErr t events msg)).1.completed_downloads
        = st.completed_downloads := by
  have hstep :
      (download_worker_item st url (.fetchErr t events msg)).1
        = download_worker_except
            (events.foldl (fun s e => progress_hook url e s)
              (download_worker_update_title (download_worker_enter st url) url
                (t.getD "Unknown")))
            url msg := rfl
  set st2 := download_worker_update_title (download_worker_enter st url) url
    (t.getD "Unknown") with hst2
  set st3 := events.foldl (fun s e => progress_hook url e s) st2 with hst3
  have hc1 : mapContains (download_worker_enter st url).active_downloads url = true := by
    rw [download_worker_enter_eq]
    exact mapContains_mapSet_self _ _ _
  have hc2 : mapContains st2.active_downloads url = true := by
    rw [hst2, download_worker_update_title_eq]
    simp [hc1, mapContains_mapSet_self]
  have hc3 : mapContains st3.active_downloads url = true := by
    rw [hst3, hooks_fold_contains]
    exact hc2
  have htitle : dictGet (mapGet st3.active_downloads url) "title" (pyTake url 50)
      = t.getD "Unknown" := by
    rw [hst3, hooks_fold_title, hst2, download_worker_update_title_eq]
    simp [hc1, mapGet_mapSet_self, dictGet_dictSet_self]
  have hl3 := hooks_fold_lists url events st2
  have hl2 : st2.completed_downloads = st.completed_downloads
      ∧ st2.failed_downloads = st.failed_downloads := by
    rw [hst2, download_worker_update_title_eq, download_worker_enter_eq]
    exact ⟨rfl, rfl⟩
  rw [hstep, download_worker_except_present st3 url msg hc3]
  refine ⟨?_, ?_, ?_⟩
  · rw [htitle]
    show st3.failed_downloads ++ _ = _
    rw [hl3.2, hl2.2]
  · exact mapContains_delKey_self _ _
  · show st3.completed_downloads = _
    rw [hl3.1, hl2.1]

theorem download_worker_item_success (st : DState) (url : String)
    (t : Option String) (events : List ProgressEvent) :
    (download_worker_item st url (.success t events)).1.completed_downloads
        = st.completed_downloads ++ [t.getD "Unknown"]
      ∧ (download_worker_item st url (.success t events)).1.failed_downloads
        = st.failed_downloads
      ∧ mapContains (download_worker_item st url (.success t events)).1.active_downloads
          url = false := by
  have hstep :
      (download_worker_item st url (.success t events)).1
        = download_worker_mark_completed
            (events.foldl (fun s e => progress_hook url e s)
              (download_worker_update_title (download_worker_enter st url) url
                (t.getD "Unknown")))
            url (t.getD "Unknown") := rfl
  set st2 := download_worker_update_title (download_worker_enter st url) url
    (t.getD "Unknown") with hst2
  set st3 := events.foldl (fun s e => progress_hook url e s) st2 with hst3
  have hc1 : mapContains (download_worker_enter st url).active_downloads url = true := by
    rw [download_worker_enter_eq]
    exact mapContains_mapSet_self _ _ _
  have hc2 : mapContains st2.active_downloads url = true := by
    rw [hst2, download_worker_update_title_eq]
    simp [hc1, mapContains_mapSet_self]
  have hc3 : mapContains st3.active_downloads url = true := by
    rw [hst3, hooks_fold_contains]
    exact hc2
  have hl3 := hooks_fold_lists url events st2
  have hl2 : st2.completed_downloads = st.completed_downloads
      ∧ st2.failed_downloads = st.failed_downloads := by
    rw [hst2, download_worker_update_title_eq, download_worker_enter_eq]
    exact ⟨rfl, rfl⟩
  rw [hstep, download_worker_mark_completed_eq]
  refine ⟨?_, ?_, ?_⟩
  · show st3.completed_downloads ++ _ = _
    rw [hl3.1, hl2.1]
  · show st3.failed_downloads = _
    rw [hl3.2, hl2.2]
  · show mapContains (if mapContains st3.active_downloads url then
        delKey st3.active_downloads url else st3.active_downloads) url = false
    rw [if_pos hc3]
    exact mapContains_delKey_self _ _

theorem download_worker_item_records (st : DState) (url : String) (oc : FetchOutcome) :
    (download_worker_item st url oc).1.completed_downloads.length
        + (download_worker_item st url oc).1.failed_downloads.length
      = st.completed_downloads.length + st.failed_downloads.length + 1 := by
  cases oc with
  | probeErr msg =>
    rw [download_worker_item_probeErr]
    simp
    omega
  | fetchErr t events msg =>
    rcases download_worker_item_fetchErr st url msg t events with ⟨h1, _, h3⟩
    rw [h1, h3]
    simp
    omega
  | success t events =>
    rcases download_worker_item_success st url t events with ⟨h1, h2, _⟩
    rw [h1, h2]
    simp [Nat.add_right_comm]

theorem download_worker_item_task_done (st : DState) (url : String) (oc : FetchOutcome) :
    (download_worker_item st url oc).2 = 1 := by
  cases oc <;> rfl

theorem workCount_cons_work (u : String) (oc : FetchOutcome) (rest : List QItem) :
    workCount (.work u oc :: rest) = workCount rest + 1 := by
  simp [workCount, List.filter_cons, Nat.add_comm]

theorem workCount_cons_sent (rest : List QItem) :
    workCount (.sentinel :: rest) = workCount rest := by
  simp [workCount, List.filter_cons]

theorem sentCount_cons_work (u : String) (oc : FetchOutcome) (rest : List QItem) :
    sentCount (.work u oc :: rest) = sentCount rest := by
  simp [sentCount, List.filter_cons]

theorem sentCount_cons_sent (rest : List QItem) :
    sentCount (.sentinel :: rest) = sentCount rest + 1 := by
  simp [sentCount, List.filter_cons, Nat.add_comm]

theorem workCount_append_sent (q : List QItem) :
    workCount (q ++ [.sentinel]) = workCount q := by
  simp [workCount, List.filter_append]

theorem sentCount_append_sent (q : List QItem) :
    sentCount (q ++ [.sentinel]) = sentCount q + 1 := by
  simp [sentCount, List.filter_append]

theorem workCount_map_work (items : List (String × FetchOutcome)) :
    workCount (items.map (fun p => QItem.work p.1 p.2)) = items.length := by
  induction items with
  | nil => rfl
  | cons p tl ih => simp [List.map_cons, workCount_cons_work, ih]

theorem sentCount_map_work (items : List (String × FetchOutcome)) :
    sentCount (items.map (fun p => QItem.work p.1 p.2)) = 0 := by
  induction items with
  | nil => rfl
  | cons p tl ih => simp [List.map_cons, sentCount_cons_work, ih]

/-- The inductive invariant of the quit sequence over n initially queued
work items: unfinished-task accounting of the Python Queue, no poison pill
and no exited worker before the drain completes, conservation of the work
items, no work left once the dispatcher is past the drain, a budget of one
pill per worker, and the processed items split exactly into the
successfully and the unsuccessfully processed ones. -/
def SysInv (n : Nat) (s : Sys) : Prop :=
  s.unfinished
      = workCount s.queue + s.inflight.length + sentCount s.queue + s.exited
    ∧ (s.phase = .draining → sentCount s.queue = 0 ∧ s.exited = 0)
    ∧ s.processedWork + workCount s.queue + s.inflight.length = n
    ∧ (∀ k, s.phase = .stopping k → workCount s.queue = 0 ∧ s.inflight = []
        ∧ sentCount s.queue + s.exited = num_workers - k ∧ k ≤ num_workers)
    ∧ s.processedOk + s.processedErr = s.processedWork

theorem SysInv_init (items : List (String × FetchOutcome)) :
    SysInv items.length (initSys items) := by
  refine ⟨?_, ?_, ?_, ?_, ?_⟩
  · show items.length = workCount (items.map (fun p => QItem.work p.1 p.2)) + 0
        + sentCount (items.map (fun p => QItem.work p.1 p.2)) + 0
    rw [workCount_map_work, sentCount_map_work]
    omega
  · intro _
    exact ⟨sentCount_map_work items, rfl⟩
  · show 0 + workCount (items.map (fun p => QItem.work p.1 p.2)) + 0 = items.length
    rw [workCount_map_work]
    omega
  · intro k hk
    exact absurd hk (by simp [initSys])
  · rfl

theorem SysInv_step {n : Nat} {s s' : Sys} (hinv : SysInv n s) (hs : Step s s') :
    SysInv n s' := by
  obtain ⟨h1, h2, h3, h4, h5⟩ := hinv
  cases hs with
  | dequeueWork u oc rest hq =>
    rw [hq, workCount_cons_work, sentCount_cons_work] at h1
    rw [hq, workCount_cons_work] at h3
    refine ⟨?_, ?_, ?_, ?_, h5⟩
    · show s.unfinished = workCount rest + (s.inflight ++ [(u, oc)]).length
          + sentCount rest + s.exited
      simp only [List.length_append, List.length_cons, List.length_nil]
      omega
    · intro hph
      rcases h2 hph with ⟨hs0, he0⟩
      rw [hq, sentCount_cons_work] at hs0
      exact ⟨hs0, he0⟩
    · show s.processedWork + workCount rest + (s.inflight ++ [(u, oc)]).length = n
      simp only [List.length_append, List.length_cons, List.length_nil]
      omega
    · intro k hph
      rcases h4 k hph with ⟨hw, _, _, _⟩
      rw [hq, workCount_cons_work] at hw
      omega
  | dequeueSentinel rest hq =>
    rw [hq, workCount_cons_sent, sentCount_cons_sent] at h1
    rw [hq, workCount_cons_sent] at h3
    refine ⟨?_, ?_, h3, ?_, h5⟩
    · show s.unfinished = workCount rest + s.inflight.length + sentCount rest
          + (s.exited + 1)
      omega
    · intro hph
      rcases h2 hph with ⟨hs0, _⟩
      rw [hq, sentCount_cons_sent] at hs0
      omega
    · intro k hph
      rcases h4 k hph with ⟨hw, hin, hse, hk⟩
      rw [hq, workCount_cons_sent] at hw
      rw [hq, sentCount_cons_sent] at hse
      refine ⟨hw, hin, ?_, hk⟩
      show sentCount rest + (s.exited + 1) = num_workers - k
      omega
  | finishItem l1 l2 u oc hf =>
    have hlen : s.inflight.length = l1.length + l2.length + 1 := by
      rw [hf]
      simp
      omega
    refine ⟨?_, h2, ?_, ?_, ?_⟩
    · show s.unfinished - 1 = workCount s.queue + (l1 ++ l2).length
          + sentCount s.queue + s.exited
      simp only [List.length_append]
      omega
    · show s.processedWork + 1 + workCount s.queue + (l1 ++ l2).length = n
      simp only [List.length_append]
      omega
    · intro k hph
      rcases h4 k hph with ⟨_, hin, _, _⟩
      rw [hin] at hf
      exact absurd hf.symm (List.append_ne_nil_of_right_ne_nil l1 (by simp))
    · show s.processedOk + (if isFailureOutcome oc then 0 else 1)
          + (s.processedErr + (if isFailureOutcome oc then 1 else 0))
          = s.processedWork + 1
      cases hoc : isFailureOutcome oc <;> simp [hoc] <;> omega
  | drainComplete hp hu =>
    rw [h1] at hu
    rcases h2 hp with ⟨hs0, he0⟩
    have hw0 : workCount s.queue = 0 := by omega
    have hin0 : s.inflight = [] := List.eq_nil_of_length_eq_zero (by omega)
    refine ⟨h1, ?_, h3, ?_, h5⟩
    · intro hph
      simp at hph
    · intro k hk
      have hk3 : k = num_workers := by
        simpa using hk.symm
      subst hk3
      refine ⟨hw0, hin0, ?_, le_refl _⟩
      show sentCount s.queue + s.exited = num_workers - num_workers
      omega
  | putSentinel k hp =>
    rcases h4 (k + 1) hp with ⟨hw, hin, hse, hk⟩
    refine ⟨?_, ?_, ?_, ?_, h5⟩
    · show s.unfinished + 1 = workCount (s.queue ++ [.sentinel])
          + s.inflight.length + sentCount (s.queue ++ [.sentinel]) + s.exited
      rw [workCount_append_sent, sentCount_append_sent]
      omega
    · intro hph
      simp at hph
    · show s.processedWork + workCount (s.queue ++ [.sentinel])
          + s.inflight.length = n
      rw [workCount_append_sent]
      omega
    · intro k2 hk2
      have hkk : k2 = k := by
        simpa using hk2.symm
      show workCount (s.queue ++ [.sentinel]) = 0 ∧ s.inflight = []
          ∧ sentCount (s.queue ++ [.sentinel]) + s.exited = num_workers - k2
          ∧ k2 ≤ num_workers
      rw [workCount_append_sent, sentCount_append_sent, hkk]
      exact ⟨hw, hin, by omega, by omega⟩

theorem SysInv_reachable (items : List (String × FetchOutcome)) (s : Sys)
    (h : Reachable items s) : SysInv items.length s := by
  induction h with
  | refl => exact SysInv_init items
  | tail hab hbc ih => exact SysInv_step ih hbc

/-- Invariant of the snapshot interleaving: the renderer owns queue_lock
exactly between its acquire and its release; while it does, the
observations already taken match the current shared state (writers are
excluded by the lock); once released, all four observations match one
single shared state. -/
def RInv (s : RSys) : Prop :=
  (s.owner = .renderer ↔ (1 ≤ s.pc ∧ s.pc ≤ 5))
    ∧ (2 ≤ s.pc → s.pc ≤ 5 → s.obsActive = activeRows s.shared.1)
    ∧ (3 ≤ s.pc → s.pc ≤ 5 → s.obsQueue = queueRows s.shared.2)
    ∧ (4 ≤ s.pc → s.pc ≤ 5 → s.obsCompleted = completedRows s.shared.1)
    ∧ (5 ≤ s.pc → s.pc ≤ 5 → s.obsFailed = failedRows s.shared.1)
    ∧ (s.pc = 6 → ∃ σ : SState, s.obsActive = activeRows σ.1
        ∧ s.obsQueue = queueRows σ.2 ∧ s.obsCompleted = completedRows σ.1
        ∧ s.obsFailed = failedRows σ.1)

theorem RInv_init (s0 : SState) : RInv (initRSys s0) := by
  refine ⟨?_, ?_, ?_, ?_, ?_, ?_⟩
  · constructor
    · intro h
      cases h
    · intro h
      exact absurd h.1 (by simp [initRSys])
  all_goals intro h
  all_goals simp [initRSys] at h

theorem RInv_step {s s' : RSys} (hinv : RInv s) (hs : RStep s s') : RInv s' := by
  obtain ⟨h0, h2, h3, h4, h5, h6⟩ := hinv
  cases hs with
  | writer f howner =>
    have hnp : ¬(1 ≤ s.pc ∧ s.pc ≤ 5) := by
      intro hp
      have := h0.mpr hp
      rw [howner] at this
      cases this
    refine ⟨h0, ?_, ?_, ?_, ?_, ?_⟩
    · intro ha hb
      have ha2 : 2 ≤ s.pc := ha
      have hb2 : s.pc ≤ 5 := hb
      exact absurd ⟨by omega, hb2⟩ hnp
    · intro ha hb
      have ha2 : 3 ≤ s.pc := ha
      have hb2 : s.pc ≤ 5 := hb
      exact absurd ⟨by omega, hb2⟩ hnp
    · intro ha hb
      have ha2 : 4 ≤ s.pc := ha
      have hb2 : s.pc ≤ 5 := hb
      exact absurd ⟨by omega, hb2⟩ hnp
    · intro ha hb
      have ha2 : 5 ≤ s.pc := ha
      have hb2 : s.pc ≤ 5 := hb
      exact absurd ⟨by omega, hb2⟩ hnp
    · intro hp
      exact h6 hp
  | acquire howner hpc =>
    refine ⟨by simp, ?_, ?_, ?_, ?_, ?_⟩
    · intro ha _
      exact absurd (show (2 : Nat) ≤ 1 from ha) (by omega)
    · intro ha _
      exact absurd (show (3 : Nat) ≤ 1 from ha) (by omega)
    · intro ha _
      exact absurd (show (4 : Nat) ≤ 1 from ha) (by omega)
    · intro ha _
      exact absurd (show (5 : Nat) ≤ 1 from ha) (by omega)
    · intro ha
      exact absurd (show (1 : Nat) = 6 from ha) (by omega)
  | readActive howner hpc =>
    refine ⟨by simp [howner], ?_, ?_, ?_, ?_, ?_⟩
    · intro _ _
      rfl
    · intro ha _
      exact absurd (show (3 : Nat) ≤ 2 from ha) (by omega)
    · intro ha _
      exact absurd (show (4 : Nat) ≤ 2 from ha) (by omega)
    · intro ha _
      exact absurd (show (5 : Nat) ≤ 2 from ha) (by omega)
    · intro ha
      exact absurd (show (2 : Nat) = 6 from ha) (by omega)
  | readQueue howner hpc =>
    refine ⟨by simp [howner], ?_, ?_, ?_, ?_, ?_⟩
    · intro _ _
      exact h2 (by omega) (by omega)
    · intro _ _
      rfl
    · intro ha _
      exact absurd (show (4 : Nat) ≤ 3 from ha) (by omega)
    · intro ha _
      exact absurd (show (5 : Nat) ≤ 3 from ha) (by omega)
    · intro ha
      exact absurd (show (3 : Nat) = 6 from ha) (by omega)
  | readCompleted howner hpc =>
    refine ⟨by simp [howner], ?_, ?_, ?_, ?_, ?_⟩
    · intro _ _
      exact h2 (by omega) (by omega)
    · intro _ _
      exact h3 (by omega) (by omega)
    · intro _ _
      rfl
    · intro ha _
      exact absurd (show (5 : Nat) ≤ 4 from ha) (by omega)
    · intro ha
      exact absurd (show (4 : Nat) = 6 from ha) (by omega)
  | readFailed howner hpc =>
    refine ⟨by simp [howner], ?_, ?_, ?_, ?_, ?_⟩
    · intro _ _
      exact h2 (by omega) (by omega)
    · intro _ _
      exact h3 (by omega) (by omega)
    · intro _ _
      exact h4 (by omega) (by omega)
    · intro _ _
      rfl
    · intro ha
      exact absurd (show (5 : Nat) = 6 from ha) (by omega)
  | release howner hpc =>
    refine ⟨by simp, ?_, ?_, ?_, ?_, ?_⟩
    · intro _ hb
      exact absurd (show (6 : Nat) ≤ 5 from hb) (by omega)
    · intro _ hb
      exact absurd (show (6 : Nat) ≤ 5 from hb) (by omega)
    · intro _ hb
      exact absurd (show (6 : Nat) ≤ 5 from hb) (by omega)
    · intro _ hb
      exact absurd (show (6 : Nat) ≤ 5 from hb) (by omega)
    · intro _
      exact ⟨s.shared, h2 (by omega) (by omega), h3 (by omega) (by omega),
        h4 (by omega) (by omega), h5 (by omega) (by omega)⟩

theorem RInv_reachable (s0 : SState) (s : RSys) (h : RReachable s0 s) :
    RInv s := by
  induction h with
  | refl => exact RInv_init s0
  | tail hab hbc ih => exact RInv_step ih hbc

/-- C1: in the graceful-quit sequence the dispatcher blocks in the queue
join until the unfinished-item count reaches zero and only then enqueues
the poison pills, one per worker: in every reachable state of the
protocol, once any worker has exited, every one of the N initially
queued items has been fully processed, each on its success or on its
failure path; a poison pill in the queue implies no real work is queued
or in flight; and never more than one pill per worker exists. -/
theorem quit_drains_all_before_any_worker_exits
    (items : List (String × FetchOutcome)) (s : Sys) (h : Reachable items s) :
    (0 < s.exited → s.processedWork = items.length
        ∧ s.processedOk + s.processedErr = items.length)
      ∧ (0 < sentCount s.queue → workCount s.queue = 0 ∧ s.inflight = [])
      ∧ sentCount s.queue + s.exited ≤ num_workers := by
  obtain ⟨h1, h2, h3, h4, h5⟩ := SysInv_reachable items s h
  cases hph : s.phase with
  | draining =>
    rcases h2 hph with ⟨hs0, he0⟩
    refine ⟨?_, ?_, ?_⟩
    · intro hex
      omega
    · intro hsc
      omega
    · rw [hs0, he0]
      omega
  | stopping k =>
    rcases h4 k hph with ⟨hw, hin, hse, hk⟩
    have hlen : s.inflight.length = 0 := by
      rw [hin]
      rfl
    refine ⟨?_, fun _ => ⟨hw, hin⟩, by omega⟩
    intro _
    constructor
    · omega
    · omega

/-- The single queued item of the concrete quit run: its fetch succeeds
with no probed title and no progress events. -/
def itemW : String × FetchOutcome := ("https://youtu.be/a", .success none [])

/-- The state of the concrete quit run after the item was dequeued and
processed on its success path, the drain completed, one pill was put and
one worker consumed it and exited. -/
def sysW : Sys :=
  { queue := [], unfinished := 1, inflight := [], exited := 1,
    phase := .stopping 2, processedWork := 1, processedOk := 1,
    processedErr := 0 }

theorem reachW : Reachable [itemW] sysW := by
  have t1 : Step (initSys [itemW])
      ⟨[], 1, [("https://youtu.be/a", .success none [])], 0,
        .draining, 0, 0, 0⟩ :=
    Step.dequeueWork _ "https://youtu.be/a" (.success none []) [] rfl
  have t2 : Step
      (⟨[], 1, [("https://youtu.be/a", .success none [])], 0,
        .draining, 0, 0, 0⟩ : Sys)
      ⟨[], 0, [], 0, .draining, 1, 1, 0⟩ :=
    Step.finishItem _ [] [] "https://youtu.be/a" (.success none []) rfl
  have t3 : Step (⟨[], 0, [], 0, .draining, 1, 1, 0⟩ : Sys)
      ⟨[], 0, [], 0, .stopping 3, 1, 1, 0⟩ :=
    Step.drainComplete _ rfl rfl
  have t4 : Step (⟨[], 0, [], 0, .stopping 3, 1, 1, 0⟩ : Sys)
      ⟨[.sentinel], 1, [], 0, .stopping 2, 1, 1, 0⟩ :=
    Step.putSentinel _ 2 rfl
  have t5 : Step (⟨[.sentinel], 1, [], 0, .stopping 2, 1, 1, 0⟩ : Sys)
      sysW :=
    Step.dequeueSentinel _ [] rfl
  exact Relation.ReflTransGen.tail (Relation.ReflTransGen.tail
    (Relation.ReflTransGen.tail (Relation.ReflTransGen.tail
      (Relation.ReflTransGen.tail Relation.ReflTransGen.refl t1) t2) t3) t4) t5

theorem quit_drains_all_before_any_worker_exits_witness :
    sysW.processedWork = 1
      ∧ sysW.processedOk + sysW.processedErr = 1
      ∧ sentCount sysW.queue + sysW.exited ≤ num_workers := by
  have h := quit_drains_all_before_any_worker_exits [itemW] sysW reachW
  exact ⟨(h.1 (by decide)).1, (h.1 (by decide)).2, h.2.2⟩

/-- C2 counterexample: on a probe failure with an empty ledger the failure
record is "Fetching info... - HTTP Error 403", labelled with the default
title and not with the first 50 characters of the url as the claim
states. -/
theorem probe_failure_label_counterexample :
    (download_worker_item ⟨[], [], []⟩
          "https://www.youtube.com/watch?v=dQw4w9WgXcQ"
          (.probeErr "HTTP Error 403")).1.failed_downloads
        = ["Fetching info... - HTTP Error 403"]
      ∧ (download_worker_item ⟨[], [], []⟩
          "https://www.youtube.com/watch?v=dQw4w9WgXcQ"
          (.probeErr "HTTP Error 403")).1.failed_downloads
        ≠ [pyTake "https://www.youtube.com/watch?v=dQw4w9WgXcQ" 50
            ++ " - " ++ "HTTP Error 403"] := by
  constructor
  · decide
  · decide

/-- C2 amended: when the probe fails the active entry still holds the
default title, so the failure record is labelled "Fetching info...";
the url[:50] lookup default is never reached because the entry created on
dequeue always carries a title; the entry itself is removed. -/
theorem probe_failure_uses_default_title_label (st : DState) (url msg : String) :
    (download_worker_item st url (.probeErr msg)).1.failed_downloads
        = st.failed_downloads ++ ["Fetching info..." ++ " - " ++ pyTake msg 50]
      ∧ mapContains
          (download_worker_item st url (.probeErr msg)).1.active_downloads url
        = false := by
  rw [download_worker_item_probeErr]
  exact ⟨rfl, mapContains_delKey_self _ _⟩

/-- C3: every probe or fetch failure is handled inside the worker body,
which is a total function of the shared state: the message is truncated
to 50 characters, the active entry of the url is removed, and exactly one
"label - error" record is appended to the failed list, the label being
the title known at failure time (the default title on a probe failure,
the probed title on a fetch failure). -/
theorem worker_records_every_failure (st : DState) (url msg : String)
    (t : Option String) (events : List ProgressEvent) :
    ((download_worker_item st url (.probeErr msg)).1.failed_downloads
        = st.failed_downloads ++ ["Fetching info..." ++ " - " ++ pyTake msg 50]
      ∧ mapContains
          (download_worker_item st url (.probeErr msg)).1.active_downloads url
        = false)
    ∧ ((download_worker_item st url (.fetchErr t events msg)).1.failed_downloads
        = st.failed_downloads ++ [t.getD "Unknown" ++ " - " ++ pyTake msg 50]
      ∧ mapContains
          (download_worker_item st url (.fetchErr t events msg)).1.active_downloads
          url = false) := by
  rcases download_worker_item_fetchErr st url msg t events with ⟨f1, f2, _⟩
  refine ⟨⟨?_, ?_⟩, f1, f2⟩
  · rw [download_worker_item_probeErr]
  · rw [download_worker_item_probeErr]
    exact mapContains_delKey_self _ _

/-- C4: a progress event for a url whose active entry has been removed
mutates nothing: the hook returns the state unchanged, so there is no
crash, no re-created entry, and the completed and failed lists are
untouched. -/
theorem progress_hook_absent_noop (url : String) (e : ProgressEvent) (st : DState)
    (h : mapContains st.active_downloads url = false) :
    progress_hook url e st = st := by
  cases e with
  | downloading p => simp [progress_hook, h]
  | finished => simp [progress_hook, h]
  | other s2 => rfl

theorem progress_hook_absent_noop_witness :
    progress_hook "https://youtu.be/gone" (.downloading (some " 37.5%"))
        ⟨[("https://youtu.be/other", [("title", "T"), ("progress", "10%")])],
          ["done"], ["bad"]⟩
      = ⟨[("https://youtu.be/other", [("title", "T"), ("progress", "10%")])],
          ["done"], ["bad"]⟩ :=
  progress_hook_absent_noop _ _ _ (by decide)

/-- C5: the four reads of create_status_table happen inside one critical
section of queue_lock, mutually exclusive with every writer, so whenever
the call has finished there is a single shared state of which the active
rows, the queue-depth row, the completed tail and the failed tail are all
projections, and the rendered table is create_status_table of that one
state. -/
theorem status_snapshot_consistent (s0 : SState) (s : RSys)
    (h : RReachable s0 s) (hdone : s.pc = 6) :
    ∃ σ : SState, s.obsActive = activeRows σ.1 ∧ s.obsQueue = queueRows σ.2
      ∧ s.obsCompleted = completedRows σ.1 ∧ s.obsFailed = failedRows σ.1
      ∧ s.obsActive ++ s.obsQueue ++ s.obsCompleted ++ s.obsFailed
        = create_status_table σ.1 σ.2 := by
  obtain ⟨-, -, -, -, -, h6⟩ := RInv_reachable s0 s h
  obtain ⟨σ, e1, e2, e3, e4⟩ := h6 hdone
  refine ⟨σ, e1, e2, e3, e4, ?_⟩
  rw [e1, e2, e3, e4]
  rfl

/-- A completed renderer pass over the empty shared state. -/
def rsysW : RSys :=
  { shared := (⟨[], [], []⟩, 0), owner := .free, pc := 6,
    obsActive := [], obsQueue := [], obsCompleted := [], obsFailed := [] }

theorem reachRW : RReachable (⟨[], [], []⟩, 0) rsysW := by
  have t1 : RStep (initRSys (⟨[], [], []⟩, 0))
      ⟨(⟨[], [], []⟩, 0), .renderer, 1, [], [], [], []⟩ :=
    RStep.acquire _ rfl rfl
  have t2 : RStep (⟨(⟨[], [], []⟩, 0), .renderer, 1, [], [], [], []⟩ : RSys)
      ⟨(⟨[], [], []⟩, 0), .renderer, 2, [], [], [], []⟩ :=
    RStep.readActive _ rfl rfl
  have t3 : RStep (⟨(⟨[], [], []⟩, 0), .renderer, 2, [], [], [], []⟩ : RSys)
      ⟨(⟨[], [], []⟩, 0), .renderer, 3, [], [], [], []⟩ :=
    RStep.readQueue _ rfl rfl
  have t4 : RStep (⟨(⟨[], [], []⟩, 0), .renderer, 3, [], [], [], []⟩ : RSys)
      ⟨(⟨[], [], []⟩, 0), .renderer, 4, [], [], [], []⟩ :=
    RStep.readCompleted _ rfl rfl
  have t5 : RStep (⟨(⟨[], [], []⟩, 0), .renderer, 4, [], [], [], []⟩ : RSys)
      ⟨(⟨[], [], []⟩, 0), .renderer, 5, [], [], [], []⟩ :=
    RStep.readFailed _ rfl rfl
  have t6 : RStep (⟨(⟨[], [], []⟩, 0), .renderer, 5, [], [], [], []⟩ : RSys)
      rsysW :=
    RStep.release _ rfl rfl
  exact Relation.ReflTransGen.tail (Relation.ReflTransGen.tail
    (Relation.ReflTransGen.tail (Relation.ReflTransGen.tail
      (Relation.ReflTransGen.tail (Relation.ReflTransGen.tail
        Relation.ReflTransGen.refl t1) t2) t3) t4) t5) t6

theorem status_snapshot_consistent_witness :
    ∃ σ : SState, rsysW.obsActive = activeRows σ.1
      ∧ rsysW.obsQueue = queueRows σ.2
      ∧ rsysW.obsCompleted = completedRows σ.1
      ∧ rsysW.obsFailed = failedRows σ.1
      ∧ rsysW.obsActive ++ rsysW.obsQueue ++ rsysW.obsCompleted ++ rsysW.obsFailed
        = create_status_table σ.1 σ.2 :=
  status_snapshot_consistent (⟨[], [], []⟩, 0) rsysW reachRW rfl

/-- C6: an input that is not the quit or the status command is rejected
without enqueueing when it strips to the empty string, rejected when it
contains neither "youtube.com" nor "youtu.be", and otherwise put on the
queue with the new queue depth reported. -/
theorem input_validation (url : String) (queueSize : Nat)
    (hq : pyLower url ≠ "q") (hs : pyLower url ≠ "s") :
    (pyStrip url = "" → main_handle_input url queueSize = .rejectEmpty)
      ∧ (pyStrip url ≠ "" → containsSub url "youtube.com" = false →
          containsSub url "youtu.be" = false →
          main_handle_input url queueSize = .rejectNotYouTube)
      ∧ (pyStrip url ≠ "" →
          (containsSub url "youtube.com" = true ∨ containsSub url "youtu.be" = true) →
          main_handle_input url queueSize = .enqueued (queueSize + 1)) := by
  unfold main_handle_input
  refine ⟨?_, ?_, ?_⟩
  · intro he
    simp [hq, hs, he]
  · intro he h1 h2
    simp [hq, hs, he, h1, h2]
  · intro he hdom
    rcases hdom with h1 | h1
    · simp [hq, hs, he, h1]
    · simp [hq, hs, he, h1]

theorem input_validation_witness :
    main_handle_input "https://www.youtube.com/watch?v=abc123" 0 = .enqueued 1
      ∧ main_handle_input "   " 0 = .rejectEmpty
      ∧ main_handle_input "https://example.com/x" 0 = .rejectNotYouTube := by
  refine ⟨?_, ?_, ?_⟩
  · exact (input_validation "https://www.youtube.com/watch?v=abc123" 0
      (by decide) (by decide)).2.2 (by decide) (Or.inl (by decide))
  · exact (input_validation "   " 0 (by decide) (by decide)).1 (by decide)
  · exact (input_validation "https://example.com/x" 0 (by decide) (by decide)).2.1
      (by decide) (by decide) (by decide)

/-- C7: the guarded removal of an active entry never raises, and on an
absent key it is a benign no-op: leave reports nothing removed with the
map unchanged, the success epilogue leaves the active map as it was, and
the except handler leaves the whole state unchanged. -/
theorem leave_absent_noop :
    (∀ (m : ActiveMap) (url : String), leave m url ≠ none)
      ∧ ∀ (st : DState) (url title msg : String),
          mapContains st.active_downloads url = false →
            leave st.active_downloads url = some (false, st.active_downloads)
              ∧ (download_worker_mark_completed st url title).active_downloads
                = st.active_downloads
              ∧ download_worker_except st url msg = st := by
  constructor
  · intro m url
    unfold leave pyDel
    by_cases h : mapContains m url <;> simp [h]
  · intro st url title msg h
    refine ⟨?_, ?_, download_worker_except_absent st url msg h⟩
    · unfold leave
      simp [h]
    · rw [download_worker_mark_completed_eq]
      simp [h]

/-- C8: each dequeued non-sentinel item signals task_done exactly once
through the finally clause whatever its outcome, so the unfinished-task
counter of the queue counts exactly the submitted items not yet fully
processed (plus pill puts), and the drain wait observes full completion. -/
theorem task_done_exactly_once_per_item :
    (∀ (st : DState) (url : String) (oc : FetchOutcome),
        (download_worker_item st url oc).2 = 1)
      ∧ ∀ (items : List (String × FetchOutcome)) (s : Sys), Reachable items s →
          s.unfinished + s.processedWork
            = items.length + sentCount s.queue + s.exited := by
  refine ⟨download_worker_item_task_done, ?_⟩
  intro items s h
  obtain ⟨h1, h2, h3, h4, h5⟩ := SysInv_reachable items s h
  omega

/-- C9: on success the completed append is unconditional, even with the
active entry already removed (as a colliding duplicate of the same url
can arrange), while on failure the failed append happens only when the
entry is still present: with the entry gone a success is still counted
and a failure leaves no record at all. -/
theorem success_counts_failure_may_not (st : DState) (url title msg : String) :
    (download_worker_mark_completed st url title).completed_downloads
        = st.completed_downloads ++ [title]
      ∧ (mapContains st.active_downloads url = false →
          download_worker_except st url msg = st)
      ∧ (mapContains st.active_downloads url = true →
          (download_worker_except st url msg).failed_downloads.length
            = st.failed_downloads.length + 1) := by
  refine ⟨?_, fun h => download_worker_except_absent st url msg h, fun h => ?_⟩
  · rw [download_worker_mark_completed_eq]
  · rw [download_worker_except_present st url msg h]
    simp

/-- C10: the q and s commands are recognised by comparing the lowercased
raw input before any stripping, so a command letter surrounded by
whitespace is no command: it falls through to url validation and is
rejected as an invalid YouTube url. -/
theorem command_match_is_on_raw_input (url : String) (queueSize : Nat) :
    (main_handle_input url queueSize = .quit ↔ pyLower url = "q")
      ∧ (main_handle_input url queueSize = .status ↔ pyLower url = "s")
      ∧ main_handle_input " q " queueSize = .rejectNotYouTube
      ∧ main_handle_input " s " queueSize = .rejectNotYouTube := by
  refine ⟨?_, ?_, rfl, rfl⟩
  · unfold main_handle_input
    split_ifs with h1 h2 h3 h4 <;> simp_all
  · unfold main_handle_input
    split_ifs with h1 h2 h3 h4 <;> simp_all

end MusicCLI
